import Mathlib

/-!
Verification of the task-list manager in `src/main.py`.

The business functions (`load_tasks`, `save_tasks`, `add_task`, `view_tasks`,
`remove_task`, `mark_task`, `clear_tasks`) operate on dynamically typed Python
values (lists of dicts), perform `isinstance` checks, and raise exceptions on
invalid input.  We embed them shallowly: Python values become the inductive
`PyVal`, raised exceptions become an `Option PyErr` / `Except PyErr` result,
and in-place list mutation becomes explicit state passing, where a function
that raises before mutating (as every function in the source does) returns the
unchanged list together with the error.
-/

namespace Todo

/-- Dynamically typed Python values, restricted to the JSON-representable
shapes the program manipulates (`None`, `bool`, `int`, `str`, `list`,
`dict` with string keys).  A dict is an insertion-ordered association list,
as in CPython. -/
inductive PyVal : Type where
  | none : PyVal
  | bool : Bool → PyVal
  | int : Int → PyVal
  | str : String → PyVal
  | list : List PyVal → PyVal
  | dict : List (String × PyVal) → PyVal

/-- Exception classes raised by the source functions.
`unicodeDecodeError` is Python's `UnicodeDecodeError`, a subclass of
`ValueError`, raised when text-mode reading meets bytes that are not valid
UTF-8. -/
inductive PyErr : Type where
  | typeError : String → PyErr
  | valueError : String → PyErr
  | indexError : String → PyErr
  | attributeError : String → PyErr
  | ioError : String → PyErr
  | unicodeDecodeError : String → PyErr
deriving DecidableEq

/-- Python `dict.get(k, dflt)`: value at key `k`, or `dflt` when absent. -/
def dget (kvs : List (String × PyVal)) (k : String) (dflt : PyVal) : PyVal :=
  match kvs with
  | [] => dflt
  | (k2, v) :: rest => if k2 = k then v else dget rest k dflt

/-- Python `d[k] = v` on a dict: replaces the value at an existing key in
place (insertion order kept), otherwise appends the new pair. -/
def setKey (kvs : List (String × PyVal)) (k : String) (v : PyVal) :
    List (String × PyVal) :=
  match kvs with
  | [] => [(k, v)]
  | (k2, w) :: rest => if k2 = k then (k2, v) :: rest else (k2, w) :: setKey rest k v

/-- Python truthiness, `bool(x)`. -/
def truthy : PyVal → Bool
  | .none => false
  | .bool b => b
  | .int n => decide (n ≠ 0)
  | .str s => decide (s ≠ "")
  | .list xs => !xs.isEmpty
  | .dict kvs => !kvs.isEmpty

/-- The characters Python's `str.strip()` removes: the CPython `str.isspace`
set (ASCII whitespace, the C1 separators, and the Unicode space category). -/
def pyIsSpace (c : Char) : Bool :=
  c == ' ' || c == '\t' || c == '\n' || c == '\x0b' || c == '\x0c' || c == '\r' ||
  c == '\x1c' || c == '\x1d' || c == '\x1e' || c == '\x1f' || c == '\x85' ||
  c == '\xa0' || c == ' ' || (decide (' ' ≤ c) && decide (c ≤ ' ')) ||
  c == ' ' || c == ' ' || c == ' ' || c == ' ' || c == '　'

/-- Python `s.strip()`: drop leading and trailing whitespace characters. -/
def pyStrip (s : String) : String :=
  String.mk (((s.data.dropWhile pyIsSpace).reverse.dropWhile pyIsSpace).reverse)

/-- Python `isinstance(x, int)`: true for `int` and (since `bool` is a
subclass of `int`) for `bool`. -/
def isPyInt : PyVal → Bool
  | .int _ => true
  | .bool _ => true
  | _ => false

/-- The integer value of an `isinstance(x, int)` value (`True` counts as 1). -/
def pyIntVal : PyVal → Int
  | .int n => n
  | .bool b => if b then 1 else 0
  | _ => 0

/-- A well-formed task as the in-memory invariant describes it. -/
structure Task : Type where
  title : String
  done : Bool

/-- The dict the program uses to represent a task. -/
def encodeTask (t : Task) : PyVal :=
  .dict [("title", .str t.title), ("done", .bool t.done)]

/-! ## Task list operations (src/main.py lines 120-216)

Each mutating operation takes the current `tasks` value and returns the value
after the call paired with the exception raised, if any.  In the source every
`raise` happens before any mutation, so an error result carries the unchanged
input list. -/

/-- `add_task` (src/main.py lines 120-140): type-check `tasks`, reject a
non-string or whitespace-only title with `ValueError`, else append
`{'title': title.strip(), 'done': False}`. -/
def add_task (tasks title : PyVal) : PyVal × Option PyErr :=
  match tasks with
  | .list xs =>
    match title with
    | .str s =>
      if pyStrip s = "" then
        (.list xs, some (.valueError "title must be a non-empty string"))
      else
        (.list (xs ++ [.dict [("title", .str (pyStrip s)), ("done", .bool false)]]),
          none)
    | _ => (.list xs, some (.valueError "title must be a non-empty string"))
  | _ => (tasks, some (.typeError "tasks must be a list"))

/-- One element of the `view_tasks` comprehension (src/main.py line 156):
`{'title': t.get('title', ''), 'done': bool(t.get('done', False))}`; a
non-dict element would make `.get` raise `AttributeError`. -/
def viewItem : PyVal → Except PyErr PyVal
  | .dict kvs =>
      .ok (.dict [("title", dget kvs "title" (.str "")),
                  ("done", .bool (truthy (dget kvs "done" (.bool false))))])
  | _ => .error (.attributeError "object has no attribute get")

/-- `view_tasks` (src/main.py lines 143-156): type-check, then return a new
list of freshly built task dicts. -/
def view_tasks (tasks : PyVal) : Except PyErr PyVal :=
  match tasks with
  | .list xs => (xs.mapM viewItem).map PyVal.list
  | _ => .error (.typeError "tasks must be a list")

/-- `remove_task` (src/main.py lines 159-178): type-check `tasks` and
`index`, raise `IndexError` unless `0 ≤ index < len(tasks)`, then
`tasks.pop(index)`.  The index is zero-based; the CLI front end converts the
user's one-based number before calling this. -/
def remove_task (tasks index : PyVal) : PyVal × Option PyErr :=
  match tasks with
  | .list xs =>
    if isPyInt index then
      if pyIntVal index < 0 ∨ (xs.length : Int) ≤ pyIntVal index then
        (.list xs, some (.indexError "task index out of range"))
      else
        (.list (xs.eraseIdx (pyIntVal index).toNat), none)
    else (.list xs, some (.typeError "index must be an int"))
  | _ => (tasks, some (.typeError "tasks must be a list"))

/-- `mark_task` (src/main.py lines 181-200): same validation as
`remove_task`, then `tasks[index]['done'] = True`.  Item assignment on a
non-dict element would raise `TypeError`. -/
def mark_task (tasks index : PyVal) : PyVal × Option PyErr :=
  match tasks with
  | .list xs =>
    if isPyInt index then
      if pyIntVal index < 0 ∨ (xs.length : Int) ≤ pyIntVal index then
        (.list xs, some (.indexError "task index out of range"))
      else
        match xs.getD (pyIntVal index).toNat .none with
        | .dict kvs =>
            (.list (xs.set (pyIntVal index).toNat (.dict (setKey kvs "done" (.bool true)))),
              none)
        | _ => (.list xs, some (.typeError "object does not support item assignment"))
    else (.list xs, some (.typeError "index must be an int"))
  | _ => (tasks, some (.typeError "tasks must be a list"))

/-- `clear_tasks` (src/main.py lines 203-216): type-check, then
`tasks.clear()`. -/
def clear_tasks (tasks : PyVal) : PyVal × Option PyErr :=
  match tasks with
  | .list _ => (.list [], none)
  | _ => (tasks, some (.typeError "tasks must be a list"))

/-! ## Task store (src/main.py lines 43-117)

File contents are modelled at the JSON-value level: `json.dump` followed by
`json.load` is the identity on the JSON-representable values the program
stores, so we record the parsed value rather than its byte serialization.
The failing reads are kept distinct, because `load_tasks` opens the file in
text mode with `encoding='utf-8'` and catches only `json.JSONDecodeError`
and `OSError` (src/main.py line 79): a file of bytes that are not valid
UTF-8 makes the decoding inside `json.load`'s read raise
`UnicodeDecodeError`, which is neither caught class. -/

/-- The observable content of the storage path: no file; a file whose raw
bytes are not decodable UTF-8; a decodable file whose text is not valid
JSON; an existing file whose read raises `OSError` (e.g. permission
denied); or a file parsing to a JSON value. -/
inductive FileContent : Type where
  | absent : FileContent
  | undecodable : FileContent
  | badJson : FileContent
  | readOSError : FileContent
  | json : PyVal → FileContent

/-- The validation of one stored element inside `load_tasks`
(src/main.py lines 68-77): skip a non-dict, skip a dict whose `title` is
missing or not a string, default a missing `done` to `False` and coerce it
with `bool(...)`. -/
def sanitize_item : PyVal → Option PyVal
  | .dict kvs =>
    match dget kvs "title" .none with
    | .str s =>
        some (.dict [("title", .str s),
                     ("done", .bool (truthy (dget kvs "done" (.bool false))))])
    | _ => none
  | _ => none

/-- `load_tasks` (src/main.py lines 43-81): empty list for a missing file;
empty list (with a logged error) for undecodable JSON text, for an
`OSError` while reading, and for a non-list top level; the element-wise
sanitized list for a list top level.  A `UnicodeDecodeError` raised while
decoding the file's bytes is not among the caught exception classes and
propagates to the caller. -/
def load_tasks : FileContent → Except PyErr PyVal
  | .absent => .ok (.list [])
  | .undecodable =>
      .error (.unicodeDecodeError "utf-8 codec cannot decode byte")
  | .badJson => .ok (.list [])
  | .readOSError => .ok (.list [])
  | .json v =>
    match v with
    | .list items => .ok (.list (items.filterMap sanitize_item))
    | _ => .ok (.list [])

/-- The file-system state `save_tasks` manipulates: the target path and the
temporary file beside it. -/
structure FS : Type where
  target : FileContent
  temp : Option PyVal

/-- The two file-system effects of a successful `save_tasks`
(src/main.py lines 103-107): `json.dump` into the fresh temporary file, then
`os.replace` of the temporary file onto the target path. -/
inductive SaveStep : Type where
  | writeTemp : PyVal → SaveStep
  | replace : SaveStep

/-- Effect of one `SaveStep` on the file system.  `replace` installs the
temporary file's content at the target path atomically. -/
def applyStep (fs : FS) : SaveStep → FS
  | .writeTemp v => { fs with temp := some v }
  | .replace =>
    match fs.temp with
    | some v => { target := .json v, temp := Option.none }
    | Option.none => fs

/-- The sequence of file-system steps `save_tasks` performs on its
successful path. -/
def save_steps (tasks : PyVal) : List SaveStep :=
  [.writeTemp tasks, .replace]

/-- `save_tasks` (src/main.py lines 84-117): raise `TypeError` before any
file-system access when `tasks` is not a list, else run the write-temp /
atomic-replace sequence. -/
def save_tasks (tasks : PyVal) (fs : FS) : FS × Option PyErr :=
  match tasks with
  | .list _ => ((save_steps tasks).foldl applyStep fs, Option.none)
  | _ => (fs, some (.typeError "tasks must be a list"))

/-! ## Object-identity model of `view_tasks` (src/main.py lines 143-156)

Whether the view is an independent copy is a property of object identity,
not of values, so for this one function we also give a heap embedding: task
dicts live in a heap of objects addressed by allocation order, the stored
list holds references, and the comprehension in `view_tasks` allocates a
fresh dict per element.  Mutating an object reached through the view is a
heap write at the view's reference. -/

/-- A heap of dict objects; the address of an object is its position, and
allocation appends. -/
structure DHeap : Type where
  objs : List (List (String × PyVal))

/-- Dereference: the dict object stored at address `r`. -/
def DHeap.read (h : DHeap) (r : Nat) : List (String × PyVal) :=
  h.objs.getD r []

/-- In-place mutation of the object at address `r` (e.g. Python
`d['done'] = True` on a dict reached through a reference). -/
def DHeap.write (h : DHeap) (r : Nat) (o : List (String × PyVal)) : DHeap :=
  ⟨h.objs.set r o⟩

/-- The fresh dict `view_tasks` builds from one stored task dict
(src/main.py line 156). -/
def view_copy (kvs : List (String × PyVal)) : List (String × PyVal) :=
  [("title", dget kvs "title" (.str "")),
   ("done", .bool (truthy (dget kvs "done" (.bool false))))]

/-- The comprehension of `view_tasks` over a stored list of references:
for each stored reference, allocate a fresh dict holding the copied fields,
and return the new references in order. -/
def view_tasks_heap : DHeap → List Nat → DHeap × List Nat
  | h, [] => (h, [])
  | h, r :: rs =>
    ((view_tasks_heap ⟨h.objs ++ [view_copy (h.read r)]⟩ rs).1,
      h.objs.length :: (view_tasks_heap ⟨h.objs ++ [view_copy (h.read r)]⟩ rs).2)

/-! ## Helper lemmas -/

theorem dget_cons_ne (k k2 : String) (v : PyVal) (rest : List (String × PyVal))
    (d : PyVal) (h : k2 ≠ k) : dget ((k2, v) :: rest) k d = dget rest k d := by
  simp [dget, h]

theorem setKey_idem (kvs : List (String × PyVal)) (k : String) (v : PyVal) :
    setKey (setKey kvs k v) k v = setKey kvs k v := by
  induction kvs with
  | nil => simp [setKey]
  | cons p rest ih =>
    by_cases h : p.1 = k
    · simp [setKey, h]
    · simp [setKey, h, ih]

theorem getD_append_left {α : Type} (l1 l2 : List α) (n : Nat) (d : α)
    (h : n < l1.length) : (l1 ++ l2).getD n d = l1.getD n d := by
  induction l1 generalizing n with
  | nil => simp at h
  | cons a t ih =>
    cases n with
    | zero => rfl
    | succ m =>
      simp only [List.cons_append, List.getD_cons_succ]
      exact ih m (by simpa using h)

theorem getD_append_self {α : Type} (l1 : List α) (x : α) (l2 : List α) (d : α) :
    (l1 ++ x :: l2).getD l1.length d = x := by
  induction l1 with
  | nil => rfl
  | cons a t ih => simpa using ih

theorem getD_set_self {α : Type} (l : List α) (i : Nat) (a d : α)
    (h : i < l.length) : (l.set i a).getD i d = a := by
  induction l generalizing i with
  | nil => simp at h
  | cons b t ih =>
    cases i with
    | zero => rfl
    | succ m =>
      simp only [List.set_cons_succ, List.getD_cons_succ]
      exact ih m (by simpa using h)

theorem getD_set_ne {α : Type} (l : List α) (i j : Nat) (a d : α)
    (h : j ≠ i) : (l.set i a).getD j d = l.getD j d := by
  induction l generalizing i j with
  | nil => rfl
  | cons b t ih =>
    cases i with
    | zero =>
      cases j with
      | zero => exact absurd rfl h
      | succ m => rfl
    | succ n =>
      cases j with
      | zero => rfl
      | succ m =>
        simp only [List.set_cons_succ, List.getD_cons_succ]
        exact ih n m (fun hm => h (by omega))

theorem eraseIdx_take_drop {α : Type} (l : List α) (i : Nat) :
    l.eraseIdx i = l.take i ++ l.drop (i + 1) := by
  induction l generalizing i with
  | nil => simp
  | cons a t ih =>
    cases i with
    | zero => simp
    | succ m => simp [List.eraseIdx, ih]

theorem view_tasks_heap_objs_grow (rs : List Nat) (h : DHeap) :
    ∃ ext, (view_tasks_heap h rs).1.objs = h.objs ++ ext := by
  induction rs generalizing h with
  | nil => exact ⟨[], by simp [view_tasks_heap]⟩
  | cons r rest ih =>
    obtain ⟨ext, hext⟩ := ih ⟨h.objs ++ [view_copy (h.read r)]⟩
    exact ⟨view_copy (h.read r) :: ext, by simp [view_tasks_heap, hext]⟩

theorem view_tasks_heap_refs_ge (rs : List Nat) (h : DHeap) :
    ∀ v ∈ (view_tasks_heap h rs).2, h.objs.length ≤ v := by
  induction rs generalizing h with
  | nil => simp [view_tasks_heap]
  | cons r rest ih =>
    intro v hv
    simp only [view_tasks_heap, List.mem_cons] at hv
    rcases hv with rfl | hv
    · exact Nat.le_refl _
    · have h2 := ih ⟨h.objs ++ [view_copy (h.read r)]⟩ v hv
      simp at h2
      omega

theorem view_tasks_heap_len (rs : List Nat) (h : DHeap) :
    (view_tasks_heap h rs).2.length = rs.length := by
  induction rs generalizing h with
  | nil => rfl
  | cons r rest ih => simp [view_tasks_heap, ih]

theorem view_tasks_heap_read_new (rs : List Nat) (h : DHeap)
    (hb : ∀ r ∈ rs, r < h.objs.length) :
    (view_tasks_heap h rs).2.map (view_tasks_heap h rs).1.read
      = rs.map (fun r => view_copy (h.read r)) := by
  induction rs generalizing h with
  | nil => rfl
  | cons r rest ih =>
    have hr : r < h.objs.length := hb r (List.mem_cons_self r rest)
    have hb1 : ∀ r2 ∈ rest, r2 < (DHeap.mk (h.objs ++ [view_copy (h.read r)])).objs.length := by
      intro r2 hr2
      have := hb r2 (List.mem_cons_of_mem r hr2)
      simp
      omega
    simp only [view_tasks_heap, List.map_cons]
    obtain ⟨ext, hext⟩ :=
      view_tasks_heap_objs_grow rest ⟨h.objs ++ [view_copy (h.read r)]⟩
    congr 1
    · show (view_tasks_heap ⟨h.objs ++ [view_copy (h.read r)]⟩ rest).1.read h.objs.length
          = view_copy (h.read r)
      show ((view_tasks_heap ⟨h.objs ++ [view_copy (h.read r)]⟩ rest).1.objs).getD h.objs.length []
          = view_copy (h.read r)
      rw [hext]
      show ((h.objs ++ [view_copy (h.read r)]) ++ ext).getD h.objs.length [] = view_copy (h.read r)
      rw [List.append_assoc]
      exact getD_append_self h.objs _ ext []
    · rw [ih ⟨h.objs ++ [view_copy (h.read r)]⟩ hb1]
      apply List.map_congr_left
      intro r2 hr2
      have hlt := hb r2 (List.mem_cons_of_mem r hr2)
      show view_copy ((h.objs ++ [view_copy (h.read r)]).getD r2 []) = view_copy (h.read r2)
      rw [getD_append_left _ _ _ _ hlt]
      rfl

theorem filterMap_sanitize_encode (ts : List Task) :
    (ts.map encodeTask).filterMap sanitize_item = ts.map encodeTask := by
  induction ts with
  | nil => rfl
  | cons t rest ih =>
    have hs : sanitize_item (encodeTask t) = some (encodeTask t) := rfl
    simp [List.filterMap_cons, hs, ih]

/-! ## The claims -/

/-- C3: `load_tasks` validates each element independently: on the spec's
example it keeps exactly the two valid records in order; removing a
malformed element never drops or reorders the valid elements around it; a
dict whose `title` is a string is kept with `done` defaulted to `False`
and coerced with `bool(...)`; a non-record element is skipped. -/
theorem load_tasks_elementwise :
    load_tasks (.json (.list [.dict [("title", .str "ok")], .dict [("bad", .int 1)],
        .dict [("title", .int 5)], .dict [("title", .str "x"), ("done", .str "yes")]]))
      = .ok (.list [.dict [("title", .str "ok"), ("done", .bool false)],
                    .dict [("title", .str "x"), ("done", .bool true)]])
    ∧ (∀ pre bad post, sanitize_item bad = Option.none →
        load_tasks (.json (.list (pre ++ bad :: post)))
          = load_tasks (.json (.list (pre ++ post))))
    ∧ (∀ kvs s, dget kvs "title" .none = .str s →
        sanitize_item (.dict kvs)
          = some (.dict [("title", .str s),
                          ("done", .bool (truthy (dget kvs "done" (.bool false))))]))
    ∧ (∀ n : Int, sanitize_item (.int n) = Option.none) := by
  refine ⟨rfl, ?_, ?_, fun n => rfl⟩
  · intro pre bad post hb
    show Except.ok (PyVal.list ((pre ++ bad :: post).filterMap sanitize_item))
        = .ok (.list ((pre ++ post).filterMap sanitize_item))
    simp [List.filterMap_append, List.filterMap_cons, hb]
  · intro kvs s ht
    simp [sanitize_item, ht]

/-- C3 witness: skipping the malformed `1` between no other elements keeps
the load result unchanged. -/
theorem load_tasks_elementwise_w :
    load_tasks (.json (.list ([] ++ PyVal.int 1 :: [])))
      = load_tasks (.json (.list ([] ++ []))) :=
  load_tasks_elementwise.2.1 [] (.int 1) [] rfl

/-- C4: saving a list of well-formed task dicts and loading it back returns
the same list: `load_tasks` is a left inverse of `save_tasks` on valid task
lists. -/
theorem save_then_load_round_trip (ts : List Task) (fs : FS) :
    (save_tasks (.list (ts.map encodeTask)) fs).2 = Option.none
    ∧ load_tasks ((save_tasks (.list (ts.map encodeTask)) fs).1).target
        = .ok (.list (ts.map encodeTask)) := by
  refine ⟨rfl, ?_⟩
  show Except.ok (PyVal.list ((ts.map encodeTask).filterMap sanitize_item))
      = .ok (.list (ts.map encodeTask))
  rw [filterMap_sanitize_encode]

/-- C5: `add_task` with an empty string, a whitespace-only string, or
`None` raises `ValueError` (the spec's `InvalidInput`) and returns the list
unchanged. -/
theorem add_task_invalid_rejected (xs : List PyVal) :
    add_task (.list xs) (.str "")
      = (.list xs, some (.valueError "title must be a non-empty string"))
    ∧ add_task (.list xs) (.str "   ")
      = (.list xs, some (.valueError "title must be a non-empty string"))
    ∧ add_task (.list xs) .none
      = (.list xs, some (.valueError "title must be a non-empty string")) :=
  ⟨rfl, rfl, rfl⟩

/-- C6 counterexample: a stored file of bytes that are not valid UTF-8
makes `load_tasks` raise an uncaught `UnicodeDecodeError` — only
`json.JSONDecodeError` and `OSError` are caught — so it does not return the
empty list: this parse failure does propagate to the caller. -/
theorem load_tasks_undecodable_raises :
    load_tasks .undecodable
      = .error (.unicodeDecodeError "utf-8 codec cannot decode byte")
    ∧ ¬ load_tasks .undecodable = .ok (.list []) :=
  ⟨rfl, fun hx => Except.noConfusion hx⟩

/-- C6 (amended): `load_tasks` returns the empty list without raising on a
missing file, on decodable text that is not valid JSON, on an `OSError`
while reading, and on a top level that is not a list (such as the JSON
string `"not a list"`); but a file whose raw bytes are not decodable UTF-8
raises an uncaught `UnicodeDecodeError` (a `ValueError` subclass) that
propagates to the caller. -/
theorem load_tasks_recovery_contract :
    load_tasks .absent = .ok (.list [])
    ∧ load_tasks .badJson = .ok (.list [])
    ∧ load_tasks .readOSError = .ok (.list [])
    ∧ load_tasks (.json (.str "not a list")) = .ok (.list [])
    ∧ load_tasks .undecodable
        = .error (.unicodeDecodeError "utf-8 codec cannot decode byte") :=
  ⟨rfl, rfl, rfl, rfl, rfl⟩

/-- C9: `save_tasks` first writes the whole list to the temporary file and
only then atomically replaces the target; stopping after any proper prefix
of its file-system steps (in particular right after the temporary write)
leaves the target content exactly as it was, while the completed sequence
installs the new list. -/
theorem save_tasks_crash_atomic (xs : List PyVal) (fs : FS) :
    (∀ k, k < (save_steps (.list xs)).length →
        (((save_steps (.list xs)).take k).foldl applyStep fs).target = fs.target)
    ∧ save_tasks (.list xs) fs
        = ((save_steps (.list xs)).foldl applyStep fs, Option.none)
    ∧ ((save_steps (.list xs)).foldl applyStep fs).target = .json (.list xs) := by
  refine ⟨?_, rfl, rfl⟩
  intro k hk
  match k with
  | 0 => rfl
  | 1 => rfl
  | (n + 2) => simp [save_steps] at hk

/-- C9 witness: interrupting a save of the empty list right after the
temporary write leaves the previously stored one-task file intact. -/
theorem save_tasks_crash_atomic_w :
    (((save_steps (.list [])).take 1).foldl applyStep
        ⟨.json (.list [.int 3]), Option.none⟩).target
      = (FS.mk (.json (.list [.int 3])) Option.none).target :=
  (save_tasks_crash_atomic [] ⟨.json (.list [.int 3]), Option.none⟩).1 1 (by decide)

/-- C10: every operation taking the task list rejects a non-list argument
with `TypeError` and leaves its state (the list value, and for `save_tasks`
the file system) untouched, and `clear_tasks` on an actual list always
succeeds with the emptied list. -/
theorem non_list_tasks_rejected (v : PyVal) (hv : ∀ xs, v ≠ .list xs) :
    (∀ t, add_task v t = (v, some (.typeError "tasks must be a list")))
    ∧ (∀ i, remove_task v i = (v, some (.typeError "tasks must be a list")))
    ∧ (∀ i, mark_task v i = (v, some (.typeError "tasks must be a list")))
    ∧ clear_tasks v = (v, some (.typeError "tasks must be a list"))
    ∧ view_tasks v = .error (.typeError "tasks must be a list")
    ∧ (∀ fs, save_tasks v fs = (fs, some (.typeError "tasks must be a list")))
    ∧ (∀ xs, clear_tasks (.list xs) = (.list [], Option.none)) := by
  cases v
  case list xs => exact absurd rfl (hv xs)
  all_goals exact ⟨fun _ => rfl, fun _ => rfl, fun _ => rfl, rfl, rfl, fun _ => rfl, fun _ => rfl⟩

/-- C10 witness: `clear_tasks` on the integer `3` raises `TypeError`. -/
theorem non_list_tasks_rejected_w :
    clear_tasks (.int 3) = (.int 3, some (.typeError "tasks must be a list")) :=
  (non_list_tasks_rejected (.int 3) (fun _ hx => PyVal.noConfusion hx)).2.2.2.1

/-- C1 counterexample: `remove_task` indexes from zero (the CLI front end
converts the user's one-based number before calling it), so on a one-element
list the claim's in-range one-based index 1 raises `IndexError` while the
claim's out-of-range index 0 succeeds. -/
theorem remove_task_one_based_false :
    (remove_task (.list [.dict [("title", .str "a"), ("done", .bool false)]])
        (.int 1)).2 = some (.indexError "task index out of range")
    ∧ (remove_task (.list [.dict [("title", .str "a"), ("done", .bool false)]])
        (.int 0)).2 = Option.none :=
  ⟨rfl, rfl⟩

/-- C1 (amended): `remove_task` takes a zero-based index: for
`0 ≤ i < n` it succeeds, removes exactly the element at position `i`
(the result is the prefix before it followed by the suffix after it, of
length `n - 1`); for `i < 0` or `i ≥ n` it raises `IndexError` and returns
the list unchanged; a non-integer index raises `TypeError`. -/
theorem remove_task_contract (xs : List PyVal) (i : Int) :
    (0 ≤ i → i < (xs.length : Int) →
        remove_task (.list xs) (.int i)
          = (.list (xs.take i.toNat ++ xs.drop (i.toNat + 1)), Option.none)
        ∧ (xs.take i.toNat ++ xs.drop (i.toNat + 1)).length + 1 = xs.length)
    ∧ ((i < 0 ∨ (xs.length : Int) ≤ i) →
        remove_task (.list xs) (.int i)
          = (.list xs, some (.indexError "task index out of range")))
    ∧ (∀ s, remove_task (.list xs) (.str s)
          = (.list xs, some (.typeError "index must be an int"))) := by
  have heq : remove_task (.list xs) (.int i)
      = if i < 0 ∨ (xs.length : Int) ≤ i
        then (.list xs, some (.indexError "task index out of range"))
        else (.list (xs.eraseIdx i.toNat), Option.none) := rfl
  refine ⟨?_, ?_, fun s => rfl⟩
  · intro h0 hlen
    have hcond : ¬(i < 0 ∨ (xs.length : Int) ≤ i) := by omega
    have hnat : i.toNat < xs.length := by omega
    constructor
    · rw [heq, if_neg hcond, eraseIdx_take_drop]
    · rw [← eraseIdx_take_drop]
      exact List.length_eraseIdx_add_one hnat
  · intro hcond
    rw [heq, if_pos hcond]

/-- C1 witness: removing index 0 from a two-element list keeps exactly the
second element. -/
theorem remove_task_contract_w :
    remove_task (.list [.int 7, .int 8]) (.int 0)
      = (.list ([.int 7, .int 8].take 0 ++ [.int 7, .int 8].drop 1), Option.none) :=
  ((remove_task_contract [.int 7, .int 8] 0).1 (by decide) (by decide)).1

set_option maxRecDepth 8000 in
/-- C2 counterexample: `add_task` performs no length truncation: a stripped
title of 201 characters is appended at full length, where the claim demands
truncation to at most 200. -/
theorem add_task_no_truncation :
    add_task (.list []) (.str (String.mk (List.replicate 201 'a')))
      = (.list [.dict [("title", .str (String.mk (List.replicate 201 'a'))),
                        ("done", .bool false)]], Option.none)
    ∧ (String.mk (List.replicate 201 'a')).length = 201
    ∧ ¬((String.mk (List.replicate 201 'a')).length ≤ 200) :=
  ⟨rfl, rfl, by decide⟩

/-- C2 (amended): for every raw title whose `str.strip()` result is
non-empty, `add_task` appends exactly one task
`{'title': title.strip(), 'done': False}` at the end — trimming only, with
no non-printable-character stripping and no length truncation — and leaves
every other element unchanged. -/
theorem add_task_appends_stripped (xs : List PyVal) (s : String)
    (h : ¬ pyStrip s = "") :
    add_task (.list xs) (.str s)
      = (.list (xs ++ [.dict [("title", .str (pyStrip s)), ("done", .bool false)]]),
          Option.none) := by
  simp only [add_task, if_neg h]

/-- C2 witness: adding `" hi "` appends the stripped title `"hi"`. -/
theorem add_task_appends_stripped_w :
    add_task (.list []) (.str " hi ")
      = (.list [.dict [("title", .str (pyStrip " hi ")), ("done", .bool false)]],
          Option.none) :=
  add_task_appends_stripped [] " hi " (by decide)

/-- C7: `mark_task` is idempotent: whenever a call succeeds, calling it
again on the result with the same index succeeds and changes nothing — in
particular marking an already-done task is a no-op success, not an error. -/
theorem mark_task_idem (tasks idx tasks' : PyVal)
    (h : mark_task tasks idx = (tasks', Option.none)) :
    mark_task tasks' idx = (tasks', Option.none) := by
  cases tasks
  case list xs =>
    by_cases hint : isPyInt idx = true
    · by_cases hrange : pyIntVal idx < 0 ∨ (xs.length : Int) ≤ pyIntVal idx
      · have hm : mark_task (.list xs) idx
            = (.list xs, some (.indexError "task index out of range")) := by
          simp only [mark_task, if_pos hint, if_pos hrange]
        rw [hm] at h
        simp at h
      · have hnat : (pyIntVal idx).toNat < xs.length := by omega
        cases hget : xs.getD (pyIntVal idx).toNat .none <;>
          simp only [mark_task, if_pos hint, if_neg hrange, hget] at h
        all_goals try exact absurd (congrArg Prod.snd h) (Option.some_ne_none _)
        rename_i kvs
        have h1 : tasks' = .list (xs.set (pyIntVal idx).toNat
            (.dict (setKey kvs "done" (.bool true)))) := by
          have h2 := congrArg Prod.fst h
          simpa using h2.symm
        subst h1
        have hrange2 : ¬(pyIntVal idx < 0 ∨
            (((xs.set (pyIntVal idx).toNat
                (.dict (setKey kvs "done" (.bool true)))).length : Int)
              ≤ pyIntVal idx)) := by
          rw [List.length_set]
          omega
        have hget2 : (xs.set (pyIntVal idx).toNat
              (.dict (setKey kvs "done" (.bool true)))).getD
                (pyIntVal idx).toNat .none
            = .dict (setKey kvs "done" (.bool true)) :=
          getD_set_self _ _ _ _ hnat
        simp only [mark_task, if_pos hint, if_neg hrange2, hget2]
        rw [setKey_idem, List.set_set]
    · have hm : mark_task (.list xs) idx
          = (.list xs, some (.typeError "index must be an int")) := by
        simp only [mark_task, if_neg hint]
      rw [hm] at h
      simp at h
  all_goals simp [mark_task] at h

/-- C7 witness: a task already done is re-marked as a no-op success. -/
theorem mark_task_idem_w :
    mark_task (.list [.dict [("title", .str "a"), ("done", .bool true)]]) (.int 0)
      = (.list [.dict [("title", .str "a"), ("done", .bool true)]], Option.none) :=
  mark_task_idem (.list [.dict [("title", .str "a"), ("done", .bool false)]])
    (.int 0) (.list [.dict [("title", .str "a"), ("done", .bool true)]]) rfl

/-- C8: in the heap embedding of `view_tasks`, the returned references read
back element-wise equal to the freshly copied stored dicts (and a
well-formed task dict copies to itself), the view has the stored list's
length, and writing through any returned reference leaves every stored
task object unchanged: the view is an independent copy. -/
theorem view_tasks_heap_defensive (h : DHeap) (rs : List Nat)
    (hb : ∀ r ∈ rs, r < h.objs.length) :
    (view_tasks_heap h rs).2.map (view_tasks_heap h rs).1.read
        = rs.map (fun r => view_copy (h.read r))
    ∧ (view_tasks_heap h rs).2.length = rs.length
    ∧ (∀ v ∈ (view_tasks_heap h rs).2, ∀ o, ∀ r ∈ rs,
        ((view_tasks_heap h rs).1.write v o).read r = h.read r)
    ∧ (∀ t : Task, view_copy [("title", .str t.title), ("done", .bool t.done)]
        = [("title", .str t.title), ("done", .bool t.done)]) := by
  refine ⟨view_tasks_heap_read_new rs h hb, view_tasks_heap_len rs h, ?_, fun t => rfl⟩
  intro v hv o r hr
  have hvge := view_tasks_heap_refs_ge rs h v hv
  have hrlt := hb r hr
  obtain ⟨ext, hext⟩ := view_tasks_heap_objs_grow rs h
  show ((view_tasks_heap h rs).1.objs.set v o).getD r [] = h.objs.getD r []
  rw [getD_set_ne _ _ _ _ _ (by omega), hext, getD_append_left _ _ _ _ hrlt]

/-- C8 witness: viewing a one-task store yields a one-element view. -/
theorem view_tasks_heap_defensive_w :
    (view_tasks_heap ⟨[[("title", PyVal.str "a"), ("done", PyVal.bool false)]]⟩
        [0]).2.length = [0].length :=
  (view_tasks_heap_defensive ⟨[[("title", .str "a"), ("done", .bool false)]]⟩ [0]
    (by intro r hr; simp at hr ⊢; omega)).2.1

end Todo
